import Mathlib

/-!
Shallow embedding of `eda_ai_assist.py` (the Ash EDA assistant) in Lean 4,
together with theorems settling the specification claims about it.

Conventions used throughout:
* Python strings are Lean `String`s; most scanners work on `List Char`
  (`String.toList`), with positions as `Nat` indices, exactly mirroring
  Python's index arithmetic on `str`.
* Filesystem and environment access (`os.path.exists`, `os.path.isfile`,
  `os.path.expanduser`/`expandvars`, `shutil.which`, wall-clock time, pid,
  the network round trips of the providers) are modelled as explicit oracle
  parameters; a Python exception crossing a function boundary is modelled by
  an `Except` error value.
* Only ASCII behaviour of `str.lower`, `str.strip`, `\b`, `\s`, `\w` is
  modelled, which covers every vocabulary word and every input appearing in
  the claims.
-/

namespace EdaAiAssist

/-! ### Python string primitives -/

/-- `string.punctuation`: ASCII codes 33-47, 58-64, 91-96, 123-126. -/
def punctChars : List Char :=
  ([33, 34, 35, 36, 37, 38, 39, 40, 41, 42, 43, 44, 45, 46, 47,
    58, 59, 60, 61, 62, 63, 64, 91, 92, 93, 94, 95, 96,
    123, 124, 125, 126] : List Nat).map Char.ofNat

/-- Python `str.lower` (ASCII). -/
def pyLower (s : String) : String := String.mk (s.toList.map Char.toLower)

/-- Python `str.strip()` on a char list: drop whitespace from both ends. -/
def pyStripL (cs : List Char) : List Char :=
  ((cs.dropWhile Char.isWhitespace).reverse.dropWhile Char.isWhitespace).reverse

/-- Python `str.strip()` (no arguments: strips whitespace). -/
def pyStrip (s : String) : String := String.mk (pyStripL s.toList)

/-- Python `str.lstrip()`. -/
def pyLstrip (cs : List Char) : List Char := cs.dropWhile Char.isWhitespace

/-- Python `str.startswith(prefix)`. -/
def pyStartsWith (s pre : String) : Bool := pre.toList.isPrefixOf s.toList

/-- Python `str.rstrip(set)`: drop trailing chars belonging to `set`. -/
def pyRstripSet (cs : List Char) (set : List Char) : List Char :=
  (cs.reverse.dropWhile (set.contains ·)).reverse

/-- Python `str.strip(set)`: drop chars of `set` from both ends. -/
def pyStripSet (cs : List Char) (set : List Char) : List Char :=
  ((cs.dropWhile (set.contains ·)).reverse.dropWhile (set.contains ·)).reverse

/-- Python `str.split()` (no arguments): split on whitespace runs,
dropping empty pieces.  `acc` holds the reversed current token. -/
def splitWsGo : List Char → List Char → List String
  | [], acc => if acc.isEmpty then [] else [String.mk acc.reverse]
  | c :: cs, acc =>
    if c.isWhitespace then
      if acc.isEmpty then splitWsGo cs [] else String.mk acc.reverse :: splitWsGo cs []
    else splitWsGo cs (c :: acc)

def pySplitWsL (cs : List Char) : List String := splitWsGo cs []

def pySplitWs (s : String) : List String := pySplitWsL s.toList

/-- `t.strip(string.punctuation)` as used by the classifier. -/
def pyStripPunct (s : String) : String := String.mk (pyStripSet s.toList punctChars)

/-- Value of a (checked) ASCII digit string, as computed by Python `int`. -/
def digitsValL (cs : List Char) : Nat :=
  cs.foldl (fun a c => 10 * a + (c.toNat - 48)) 0

/-- Python `int(s)` on a string: optional surrounding whitespace, optional
sign, then one or more ASCII digits (underscore grouping not modelled; no
input in this development contains one). `none` models the `ValueError`. -/
def pyInt (s : String) : Option Int :=
  let t := pyStripL s.toList
  let (sign, ds) : Int × List Char :=
    match t with
    | '+' :: r => (1, r)
    | '-' :: r => (-1, r)
    | r => (1, r)
  if ds.isEmpty then none
  else if ds.all Char.isDigit then some (sign * (digitsValL ds : Int))
  else none

/-- Python `str.isdigit()` (ASCII digits). -/
def pyIsDigit (s : String) : Bool := !s.toList.isEmpty && s.toList.all Char.isDigit

/-- Python `f"{n:,}"` formatting: decimal digits grouped by 3 with commas.
`commaGroup` works on the reversed digit list. -/
def commaGroup : List Char → List Char
  | a :: b :: c :: d :: rest => a :: b :: c :: ',' :: commaGroup (d :: rest)
  | l => l

def commaFmt (n : Nat) : String :=
  String.mk (commaGroup (toString n).toList.reverse).reverse

/-! ### Token-budget state machine (`api_eda_ai_assist`)

The session-relevant mutable attributes of `api_eda_ai_assist` are the three
token counters and whether `self.provider` is set.  Logging, cost reporting
and the provider's own teardown performed by `close_ai_session` are side
effects that do not touch this state. -/

def ASH_TOKEN_LIMIT : Nat := 5000000
def ASH_TOKEN_WARN : Nat := 2500000
def ASH_TOKEN_STRONG_WARN : Nat := 4000000

structure AshState where
  token_cnt_upload : Nat
  token_cnt_download : Nat
  token_cnt_total : Nat
  providerOpen : Bool
deriving DecidableEq, Repr

/-- `close_ai_session`: a no-op when no provider is attached; otherwise
resets the three counters to zero and sets `self.provider = None`
(logging/cost reporting omitted: they do not change this state). -/
def close_ai_session (st : AshState) : AshState :=
  if st.providerOpen then ⟨0, 0, 0, false⟩ else st

/-- `open_ai_session`: when the configured provider name is known, attaches
a provider and resets the counters; an unknown provider name prints an error
and returns with the state untouched. -/
def open_ai_session (providerKnown : Bool) (st : AshState) : AshState :=
  if providerKnown then ⟨0, 0, 0, true⟩ else st

def terminalNotice : String :=
  "AI session terminated due to excessive token usage. Please use 'restart' for a new session."

def criticalWarnings (total : Nat) : List String :=
  ["CRITICAL: Total token usage (" ++ commaFmt total ++ ") has exceeded the absolute limit ("
      ++ commaFmt ASH_TOKEN_LIMIT ++ ").",
   "The AI session will be automatically closed to prevent runaway costs/instability.",
   "Please consider using 'flush' or 'restart' to start a new session."]

def strongWarnings (total : Nat) : List String :=
  ["STRONG WARNING: Total token usage (" ++ commaFmt total ++ ") is approaching the limit ("
      ++ commaFmt ASH_TOKEN_LIMIT ++ ").",
   "Consider using 'flush' or 'restart' to clear the session history and start fresh."]

def warnWarnings (total : Nat) : List String :=
  ["WARNING: Total token usage (" ++ commaFmt total ++ ") is moderately high.",
   "Long conversation histories may degrade performance or incur higher costs. Use 'flush' to clear."]

/-- `ask_ai_model`, given the provider round trip's outcome
`(result_text, prompt_tokens, completion_tokens, total_tokens)`.
Returns the reply text, the warning list and the post-call state. -/
def ask_ai_model (st : AshState) (result_text : String)
    (prompt_tokens completion_tokens total_tokens : Nat) :
    String × List String × AshState :=
  let st1 : AshState :=
    { st with
      token_cnt_upload := st.token_cnt_upload + prompt_tokens
      token_cnt_download := st.token_cnt_download + completion_tokens
      token_cnt_total := st.token_cnt_total + total_tokens }
  if st1.token_cnt_total ≥ ASH_TOKEN_LIMIT then
    (terminalNotice, criticalWarnings st1.token_cnt_total, close_ai_session st1)
  else if st1.token_cnt_total ≥ ASH_TOKEN_STRONG_WARN then
    (result_text, strongWarnings st1.token_cnt_total, st1)
  else if st1.token_cnt_total ≥ ASH_TOKEN_WARN then
    (result_text, warnWarnings st1.token_cnt_total, st1)
  else
    (result_text, [], st1)

/-! ### History bang expansion (`expand_bang`) -/

/-- `BANG_RE = re.compile(r"^!(.+)$")` applied with `.match` to
`line.strip()`: succeeds when the stripped line is `!` followed by a
non-empty remainder containing no newline (`.` does not match `\n`; the
stripped line cannot end in a newline), and yields that remainder. -/
def bangMatch (line : String) : Option (List Char) :=
  match pyStripL line.toList with
  | '!' :: rest => if !rest.isEmpty && !rest.contains '\n' then some rest else none
  | _ => none

/-- The token-dispatch of `expand_bang` after `BANG_RE` matched and the
captured group was stripped: empty history, `!!`, `!-N`, `!N`, `!prefix`,
in the source's order of checks. -/
def resolveBangToken (hist : List String) (token : String) : Except String String :=
  if hist.isEmpty then .error "event not found: history is empty"
  else if token = "!" then .ok (hist.getLastD "")
  else if token.toList.head? = some '-' then
    match pyInt (String.mk (token.toList.drop 1)) with
    | none => .error ("bad event specification: !" ++ token)
    | some n =>
      if n ≤ 0 ∨ n > (hist.length : Int) then
        .error ("bad event specification: !" ++ token)
      else .ok (hist.getD (hist.length - n.toNat) "")
  else if pyIsDigit token then
    let idx := digitsValL token.toList
    if idx ≤ 0 ∨ idx > hist.length then .error ("event not found: !" ++ token)
    else .ok (hist.getD (idx - 1) "")
  else
    match hist.reverse.find? (fun cmd => pyStartsWith cmd token) with
    | some cmd => .ok cmd
    | none => .error ("event not found: !" ++ token)

def expand_bang (hist : List String) (line : String) : Except String String :=
  match bangMatch line with
  | none => .ok line
  | some g => resolveBangToken hist (String.mk (pyStripL g))

/-! ### Classifier (`is_ai_request`) -/

def AMBIGUOUS_COMMANDS : List String :=
  ["locate", "find", "which", "compare",
   "sort", "split", "join", "write", "diff", "search"]

def AI_TRIGGERS : List String :=
  ["how", "why", "what", "when", "where", "who",
   "that", "is", "can", "will", "does", "at",
   "explain", "describe", "tell", "show", "help",
   "analyze", "interpret", "summarize", "compare",
   "count", "find", "identify", "measure", "detect",
   "decode", "please", "could", "would",
   "create", "generate", "calculate",
   "examine", "determine", "are", "you", "ash"]

def AI_TRIGR_PHRASES : List String :=
  ["delete file", "remove file",
   "delete files", "remove files",
   "output to", "output to file", "output to files",
   "write to", "write to file", "write to files",
   "save to", "save to file", "save as", "create file", "create files", "make file",
   "compare files", "compare file",
   "analyze file", "analyze files",
   "how many", "how much", "what is", "what's"]

def NATURAL_LEADING_WORDS : List String :=
  ["the", "a", "an", "this", "that", "these", "those",
   "my", "your", "our", "their"]

/-- `\w` of Python `re` restricted to ASCII. -/
def isWordChar (c : Char) : Bool := c.isAlphanum || c = '_'

def isWordAt (cs : List Char) (i : Nat) : Bool :=
  match cs[i]? with
  | some c => isWordChar c
  | none => false

/-- `\b` of Python `re` at position `i` of `cs`. -/
def wordBoundary (cs : List Char) (i : Nat) : Bool :=
  (if i = 0 then false else isWordAt cs (i - 1)) != isWordAt cs i

/-- Element of the regex produced for a trigger phrase by
`re.sub(r"\s+", r"\\s+", re.escape(phrase))`.  `re.escape` (Python ≥ 3.7)
escapes each space as backslash-space; the substitution then replaces the
space itself with the three characters backslash, `s`, `+`.  The resulting
regex therefore demands, in place of each phrase space, a LITERAL backslash
character (`\\`) followed by one or more letters `s` (`s+`). -/
inductive PatElem where
  | lit (c : Char)
  | plusL (c : Char)
deriving DecidableEq, Repr

def phrasePat (phrase : String) : List PatElem :=
  phrase.toList.flatMap fun c =>
    if c = ' ' then [.lit (Char.ofNat 92), .plusL 's'] else [.lit c]

/-- Backtracking matcher for a `List PatElem` against `cs`; returns the
number of characters consumed when the whole pattern matches a prefix. -/
def matchPat : List PatElem → List Char → Option Nat
  | [], _ => some 0
  | .lit c :: es, xs =>
    match xs with
    | [] => none
    | x :: xs' => if x = c then (matchPat es xs').map (· + 1) else none
  | .plusL c :: es, xs =>
    let maxRun := (xs.takeWhile (· = c)).length
    let rec tryRun : Nat → Option Nat
      | 0 => none
      | j + 1 =>
        match matchPat es (xs.drop (j + 1)) with
        | some m => some (j + 1 + m)
        | none => tryRun j
    tryRun maxRun

/-- `re.search(r"\b" + body + r"\b", text)` as a boolean. -/
def phraseSearch (pat : List PatElem) (cs : List Char) : Bool :=
  (List.range (cs.length + 1)).any fun i =>
    wordBoundary cs i &&
      match matchPat pat (cs.drop i) with
      | some m => wordBoundary cs (i + m)
      | none => false

def looks_like_flag (tok : String) : Bool := pyStartsWith tok "-"

def looks_like_path (tok : String) : Bool :=
  pyStartsWith tok "/" || pyStartsWith tok "./" || pyStartsWith tok "../"

def looks_like_glob (tok : String) : Bool :=
  tok.toList.any fun ch => ch = '*' || ch = '?' || ch = '['

def looks_like_filename (tok : String) : Bool :=
  tok.toList.contains '.' && !pyStartsWith tok "."

/-- `api_eda_ai_assist.is_ai_request`.  `which name` models
`shutil.which(name) is not None` (PATH lookup). -/
def is_ai_request (which : String → Bool) (prompt : String) : Bool :=
  let lower := pyLower prompt
  let tokens := (pySplitWs lower).map pyStripPunct
  match tokens with
  | [] => false
  | first :: _ =>
    if which first && !AMBIGUOUS_COMMANDS.contains first then false
    else if tokens.any (fun t => AI_TRIGGERS.contains t) then true
    else if AI_TRIGR_PHRASES.any (fun ph => phraseSearch (phrasePat ph) lower.toList) then true
    else if AMBIGUOUS_COMMANDS.contains first then
      let second := tokens.getD 1 ""
      if NATURAL_LEADING_WORDS.contains second then true
      else if looks_like_flag second || looks_like_path second ||
          looks_like_glob second || looks_like_filename second then false
      else true
    else false

/-! ### Output-file resolver (`ai_output_file`) -/

/-- Python `str.find(sub)` on char lists: index of the first occurrence. -/
def pyFindL (cs sub : List Char) : Option Nat :=
  let rec go : List Char → Nat → Option Nat
    | [], i => if sub.isEmpty && i = 0 then some 0 else none
    | c :: rest, i =>
      if sub.isPrefixOf (c :: rest) then some i else go rest (i + 1)
  if sub.isPrefixOf cs then some 0 else
    match cs with
    | [] => none
    | _ :: rest => go rest 1

/-- Replace every `,` `;` `:` by a space (`ai_output_file`'s `cleaned`). -/
def commaToSpace (cs : List Char) : List Char :=
  cs.map fun c => if c = ',' || c = ';' || c = ':' then ' ' else c

def OUTPUT_SKIP : List String := ["file", "the", "a"]

/-- `strip_trailing_punct` of `ai_output_file`: `tok.rstrip(".,;:!?)]}'\"")`. -/
def strip_trailing_punct (cs : List Char) : List Char :=
  pyRstripSet cs ['.', ',', ';', ':', '!', '?', ')', ']', '}', '\'', '"']

/-- The char set `",;:!?()[]{}"`. -/
def bracketPunct : List Char :=
  [',', ';', ':', '!', '?', '(', ')', '[', ']', '{', '}']

/-- The char set `",;:!?()[]{}'\""`. -/
def bracketPunctQuotes : List Char := bracketPunct ++ ['\'', '"']

/-- Processing of one candidate token inside `ai_output_file`; returns the
final candidate (possibly empty, meaning "keep scanning").
`expand` models `os.path.expanduser(os.path.expandvars(·))`. -/
def outputCandidate (expand : String → String) (token : List Char) : Option String :=
  if OUTPUT_SKIP.contains (pyLower (String.mk token)) then none
  else
    let tmp := pyRstripSet token bracketPunct
    let quoted := tmp.length ≥ 2 && tmp.head? = tmp.getLast? &&
      (tmp.head? = some '\'' || tmp.head? = some '"')
    let c1 := strip_trailing_punct token
    let c2 := pyStripSet c1 bracketPunctQuotes
    let c3 := if !quoted && c2.getLast? = some '.' then c2.dropLast else c2
    let c4 :=
      if c3.length ≥ 2 && c3.head? = c3.getLast? &&
          (c3.head? = some '\'' || c3.head? = some '"') then
        (c3.drop 1).dropLast
      else c3
    if c4.isEmpty then none else some (expand (String.mk c4))

/-- `api_eda_ai_assist.ai_output_file`. -/
def ai_output_file (expand : String → String) (prompt : String) : Option String :=
  let lower := (pyLower prompt).toList
  let cs := prompt.toList
  let tryTrig (trig : String) : Option String :=
    match pyFindL lower trig.toList with
    | none => none
    | some idx =>
      let after := pyStripL (cs.drop (idx + trig.length))
      let tokens := pySplitWsL (commaToSpace after)
      tokens.firstM fun tok => outputCandidate expand tok.toList
  match tryTrig "output to" with
  | some c => some c
  | none => tryTrig "write to"

/-! ### Input/delete extractor (`ai_input_files`) -/

/-- Case-insensitive literal match of word `w` at position `i` of `cs`. -/
def lowerPrefixAt (cs : List Char) (i : Nat) (w : List Char) : Bool :=
  ((cs.drop i).take w.length).map Char.toLower = w

/-- One attempted match of
`DEL_TRIG_RE = \b(?:delete|remove|rm)\b(?:\s+(?:file|files))?` (IGNORECASE)
anchored at position `i`; returns the end position.  The optional group has
no trailing `\b`, and its `file` alternative shadows `files`, so on
"delete files" only "delete file" is consumed. -/
def delTrigAt (cs : List Char) (i : Nat) : Option Nat :=
  if !wordBoundary cs i then none
  else
    match (["delete", "remove", "rm"].map String.toList).firstM
        (fun w =>
          if lowerPrefixAt cs i w && wordBoundary cs (i + w.length) then some (i + w.length)
          else none) with
    | none => none
    | some e =>
      let wsRun := ((cs.drop e).takeWhile Char.isWhitespace).length
      if wsRun = 0 then some e
      else
        let j := e + wsRun
        match ((["file", "files"].map String.toList)).firstM
            (fun w => if lowerPrefixAt cs j w then some (j + w.length) else none) with
        | some e2 => some e2
        | none => some e

/-- One attempted match of `TRIG_RE = \b(?:file|files|analyze|load)\b`
(IGNORECASE) anchored at position `i`. -/
def addTrigAt (cs : List Char) (i : Nat) : Option Nat :=
  if !wordBoundary cs i then none
  else
    (["file", "files", "analyze", "load"].map String.toList).firstM fun w =>
      if lowerPrefixAt cs i w && wordBoundary cs (i + w.length) then some (i + w.length)
      else none

/-- `finditer`: scan left to right, resuming after each match.  `fuel`
bounds the recursion; `cs.length + 1` always suffices since each step
advances the position. -/
def scanGo (tryAt : List Char → Nat → Option Nat) (cs : List Char) :
    Nat → Nat → List (Nat × Nat)
  | _, 0 => []
  | i, fuel + 1 =>
    if i > cs.length then []
    else
      match tryAt cs i with
      | some e => (i, e) :: scanGo tryAt cs (max e (i + 1)) fuel
      | none => scanGo tryAt cs (i + 1) fuel

def scanMatches (tryAt : List Char → Nat → Option Nat) (cs : List Char) : List (Nat × Nat) :=
  scanGo tryAt cs 0 (cs.length + 1)

/-- Stable insertion sort by span start (Python `list.sort(key=x[0])`). -/
def insertSpan (x : Nat × Nat × Bool) : List (Nat × Nat × Bool) → List (Nat × Nat × Bool)
  | [] => [x]
  | y :: ys => if x.1 ≤ y.1 then x :: y :: ys else y :: insertSpan x ys

def sortSpans : List (Nat × Nat × Bool) → List (Nat × Nat × Bool)
  | [] => []
  | x :: xs => insertSpan x (sortSpans xs)

/-- The merged trigger matches of `ai_input_files`: add-trigger matches
whose start falls inside a delete-trigger span are discarded, the rest are
merged with the delete matches in textual order.  The `Bool` is `true` for
a delete trigger. -/
def combinedMatches (cs : List Char) : List (Nat × Nat × Bool) :=
  let dels := scanMatches delTrigAt cs
  let adds := (scanMatches addTrigAt cs).filter fun m =>
    !dels.any fun d => d.1 ≤ m.1 && m.1 < d.2
  sortSpans (adds.map (fun m => (m.1, m.2, false)) ++ dels.map (fun m => (m.1, m.2, true)))

/-- `re.split(r"(?<=[.!?])\s+", segment, maxsplit=1)[0]`: cut at the first
whitespace character preceded by a sentence terminator. -/
def sentenceCut (cs : List Char) : List Char :=
  match (List.range cs.length).find? (fun j =>
      decide (1 ≤ j) && (cs.getD j ' ').isWhitespace &&
        ['.', '!', '?'].contains (cs.getD (j - 1) ' ')) with
  | some j => cs.take j
  | none => cs

/-- Characters excluded from a `plain` token of `TOKEN_RE`:
`[^\s,;:!?()]`. -/
def tokPlainExcluded (c : Char) : Bool :=
  c.isWhitespace || [',', ';', ':', '!', '?', '(', ')'].contains c

/-- `TOKEN_RE` tokenizer: double-quoted, single-quoted, or a plain run of
characters outside `\s,;:!?()` (tried in that order at each position, as
in the regex alternation).  Returns `(quoted, content)` pairs. -/
def tokenScanGo (cs : List Char) : Nat → Nat → List (Bool × List Char)
  | _, 0 => []
  | i, fuel + 1 =>
    match cs.drop i with
    | [] => []
    | c :: rest =>
      let dqInner := rest.takeWhile (· ≠ '"')
      let sqInner := rest.takeWhile (· ≠ '\'')
      if c = '"' && !dqInner.isEmpty && (rest.drop dqInner.length).head? = some '"' then
        (true, dqInner) :: tokenScanGo cs (i + dqInner.length + 2) fuel
      else if c = '\'' && !sqInner.isEmpty && (rest.drop sqInner.length).head? = some '\'' then
        (true, sqInner) :: tokenScanGo cs (i + sqInner.length + 2) fuel
      else if tokPlainExcluded c then tokenScanGo cs (i + 1) fuel
      else
        let run := (c :: rest).takeWhile (fun d => !tokPlainExcluded d)
        (false, run) :: tokenScanGo cs (i + run.length) fuel

def tokenScan (cs : List Char) : List (Bool × List Char) :=
  tokenScanGo cs 0 (cs.length + 1)

def SKIP_WORDS : List String := ["the", "a", "an", "file", "files", "and", "or"]

/-- Candidate processing of `ai_input_files` for one token: trailing-punct
strip, unquoted trailing period, skip-word filter, expansion, output-file
exclusion.  Returns the expanded candidate or `none` to skip. -/
def inputCandidate (expand : String → String) (outExp : Option String)
    (quoted : Bool) (content : List Char) : Option String :=
  let c1 := pyRstripSet content [',', ';', ':', '!', '?', ')', ']', '}', '\'', '"']
  let c2 := if !quoted && c1.getLast? = some '.' then c1.dropLast else c1
  if c2.isEmpty then none
  else
    let low := pyStrip (pyLower (String.mk c2))
    if SKIP_WORDS.contains low then none
    else
      let ce := expand (String.mk c2)
      if outExp = some ce then none else some ce

/-- `api_eda_ai_assist.ai_input_files`.  `expand` models
`os.path.expanduser(os.path.expandvars(·))`; `isfile` models
`os.path.isfile`.  Returns `(input_files, delete_files)`. -/
def ai_input_files (expand : String → String) (isfile : String → Bool)
    (prompt : String) (out_file : Option String) (must_exist : Bool := true) :
    List String × List String :=
  let cs := prompt.toList
  let outExp := out_file.map expand
  let combined := combinedMatches cs
  if combined.isEmpty then ([], [])
  else
    let nextStarts := (combined.drop 1).map (·.1) ++ [cs.length]
    (combined.zip nextStarts).foldl
      (fun acc m =>
        let e := m.1.2.1
        let isDel := m.1.2.2
        let segment := sentenceCut (pyLstrip ((cs.take m.2).drop e))
        (tokenScan segment).foldl
          (fun (acc : List String × List String) tk =>
            match inputCandidate expand outExp tk.1 tk.2 with
            | none => acc
            | some ce =>
              if isDel then
                if acc.2.contains ce then acc
                else if !must_exist || isfile ce then (acc.1, acc.2 ++ [ce])
                else acc
              else
                if acc.1.contains ce then acc
                else if !must_exist || isfile ce then (acc.1 ++ [ce], acc.2)
                else acc)
          acc)
      ([], [])

/-! ### Cloud file naming (`make_ash_cloud_name`, `is_ash_file`,
`find_old_ash_files`) -/

/-- Lowercase hex digit character for `n < 16`. -/
def hexDigitChar (n : Nat) : Char :=
  if n < 10 then Char.ofNat (48 + n) else Char.ofNat (87 + n)

/-- Python `f"{x:08x}"` for `x < 2^32`. -/
def hex8 (n : Nat) : List Char :=
  [hexDigitChar (n / 16 ^ 7 % 16), hexDigitChar (n / 16 ^ 6 % 16),
   hexDigitChar (n / 16 ^ 5 % 16), hexDigitChar (n / 16 ^ 4 % 16),
   hexDigitChar (n / 16 ^ 3 % 16), hexDigitChar (n / 16 ^ 2 % 16),
   hexDigitChar (n / 16 ^ 1 % 16), hexDigitChar (n % 16)]

/-- `os.path.basename` (POSIX): the part after the last `/`. -/
def pyBasename (p : String) : String :=
  String.mk (p.toList.reverse.takeWhile (· ≠ '/')).reverse

/-- `api_eda_ai_assist.make_ash_cloud_name`.  `ts` models
`int(time.time())`, `pid` models `os.getpid()`, and `host_tok` the result
of `self._get_local_host_token_impl(8)` (the first 8 lowercase hex digits
of a SHA-1 of a per-host identifier). -/
def make_ash_cloud_name (ts pid : Nat) (host_tok : String) (local_path : String) : String :=
  String.mk ("ash_".toList ++ hex8 (ts % 2 ^ 32) ++ '_' :: hex8 (pid % 2 ^ 32)
    ++ '_' :: host_tok.toList ++ '_' :: (pyBasename local_path).toList)

def isHexDig (c : Char) : Bool :=
  c.isDigit || ('a' ≤ c && c ≤ 'f') || ('A' ≤ c && c ≤ 'F')

/-- Chop `[0-9a-fA-F]{8}_` off the front. -/
def chopHex8 (cs : List Char) : Option (List Char × List Char) :=
  let h := cs.take 8
  if h.length = 8 && h.all isHexDig && (cs.drop 8).head? = some '_' then some (h, cs.drop 9)
  else none

/-- `.+$` of Python `re` (no DOTALL): a non-empty remainder with no
newline, except that a single final newline is tolerated by `$`. -/
def dotPlusEnd (rest : List Char) : Bool :=
  !rest.isEmpty &&
    (!rest.contains '\n' ||
      (rest.getLast? = some '\n' && !rest.dropLast.isEmpty && !rest.dropLast.contains '\n'))

/-- Shared parse of `^ash_([0-9a-fA-F]{8})_([0-9a-fA-F]{8})_([0-9a-fA-F]{8})_.+$`
(the anchored regex used both by `is_ash_file` and, with groups, by
`find_old_ash_files`). -/
def ashNameParts (cs : List Char) :
    Option (List Char × List Char × List Char × List Char) :=
  if cs.take 4 = "ash_".toList then
    (chopHex8 (cs.drop 4)).bind fun p1 =>
      (chopHex8 p1.2).bind fun p2 =>
        (chopHex8 p2.2).bind fun p3 =>
          if dotPlusEnd p3.2 then some (p1.1, p2.1, p3.1, p3.2) else none
  else none

/-- `api_eda_ai_assist.is_ash_file`. -/
def is_ash_file (name : String) : Bool := (ashNameParts name.toList).isSome

def hexCharVal (c : Char) : Nat :=
  if c.isDigit then c.toNat - 48
  else if 'a' ≤ c && c ≤ 'f' then c.toNat - 87
  else c.toNat - 55

/-- `int(s, 16)` on a checked hex string. -/
def hexValL (cs : List Char) : Nat := cs.foldl (fun a c => 16 * a + hexCharVal c) 0

/-- `api_eda_ai_assist.find_old_ash_files`.  `now` models
`int(time.time())`, `my_pid` models `os.getpid()`, `my_host_tok` the
result of `self._get_local_host_token_impl(len(host_tok))` (all matched
host tokens have length 8). -/
def find_old_ash_files (now my_pid : Nat) (my_host_tok : String)
    (filenames : List String) (age_seconds : Nat := 86400) (delete_level : Nat := 0) :
    List String :=
  if delete_level = 0 then []
  else
    filenames.filter fun name =>
      match ashNameParts name.toList with
      | none => false
      | some (tsH, pidH, hostH, _) =>
        let ts_hex := tsH.map Char.toLower
        let pid_hex := pidH.map Char.toLower
        let host_tok := hostH.map Char.toLower
        let file_ts := hexValL ts_hex
        let age : Int := (now : Int) - (file_ts : Int)
        if age ≤ (age_seconds : Int) then false
        else if delete_level = 3 then true
        else if delete_level = 2 then host_tok = my_host_tok.toList
        else if delete_level = 1 then
          host_tok = my_host_tok.toList && pid_hex = hex8 (my_pid % 2 ^ 32)
        else false

/-! ### AI front end (`ask_ai`) -/

/-- Observable side effects of one `ask_ai` call. -/
inductive AIEffect where
  | providerCall (prompt intro : String) (inputs deletes : List String)
  | wrote (path text : String)
deriving DecidableEq, Repr

def outputExistsRefusal (f : String) : String :=
  "Error: output file '" ++ f ++ "' already exists." ++
    "\nI’m not allowed to delete user files. You’ll need to do that yourself."

/-- `api_eda_ai_assist.ask_ai`.  Oracles: `expand` for
`expanduser`/`expandvars`, `pathExists` for `os.path.exists`, `isfile` for
`os.path.isfile`, `intro_prompt` for `load_site_prompt()`, `modelCall` for
`ask_ai_model` on the current session, `writeOk`/`sizeStr` for the
output-file write and its size report.  Returns the reply (Python `None`
when the function falls through after a failed write) and the effects. -/
def ask_ai (expand : String → String) (pathExists isfile : String → Bool)
    (intro_prompt : String) (providerOpen : Bool)
    (modelCall : String → String → List String → List String → String × List String)
    (writeOk : String → Bool) (sizeStr : String → String)
    (prompt : String) : Option (String × List String) × List AIEffect :=
  let output_file := ai_output_file expand prompt
  let rest : Option String → Option (String × List String) × List AIEffect := fun out =>
    let lists := ai_input_files expand isfile prompt out true
    let input_file_list := lists.1
    let delete_file_list := lists.2
    let ignore_prompt := String.join
      (delete_file_list.map fun f => "Ignore the request to delete file " ++ f ++ " .\n")
    let custom_prompt := ignore_prompt ++ prompt
    let step :=
      if providerOpen then
        let rw := modelCall custom_prompt intro_prompt input_file_list delete_file_list
        (rw.1, rw.2,
          [AIEffect.providerCall custom_prompt intro_prompt input_file_list delete_file_list])
      else ("AI provider not initialized. Use 'restart' to open a session.",
        ([] : List String), ([] : List AIEffect))
    let result := step.1
    let warnings := step.2.1
    let effs := step.2.2
    match out with
    | some f =>
      if writeOk f then
        (some ("Created " ++ f ++ " (" ++ sizeStr f ++ ")", warnings),
          effs ++ [AIEffect.wrote f (result ++ "\n")])
      else (none, effs)
    | none => (some (result, warnings), effs)
  match output_file with
  | some f =>
    if pathExists f then (some (outputExistsRefusal f, []), [])
    else rest (some f)
  | none => rest none

/-! ### Provider adapters (`azure_gateway_provider`, `gemini_provider`)

An `Except.error` at the top level models a Python exception escaping
`send_message`; `Except.ok` is a normal return. -/

structure azure_state where
  session_files : List (String × String)
  history : List (String × String)
  parent_files : List String
deriving DecidableEq, Repr

namespace azure_gateway_provider

/-- The provider's `_session_files` after the delete pass
(`delete_file_list` filtering) and the input-file registration pass of
`send_message`. -/
def files_after (st : azure_state) (mkName : String → String)
    (input_file_list delete_file_list : List String) : List (String × String) :=
  let files1 := if delete_file_list.isEmpty then st.session_files
    else st.session_files.filter fun it => !delete_file_list.contains it.1
  input_file_list.foldl
    (fun acc f => if acc.any (fun it => it.1 = f) then acc else acc ++ [(f, mkName f)]) files1

/-- `self.parent.session_file_list` after the same two passes. -/
def parent_after (st : azure_state) (input_file_list delete_file_list : List String) :
    List String :=
  let parent1 := if delete_file_list.isEmpty then st.parent_files
    else st.parent_files.filter fun p => !delete_file_list.contains p
  input_file_list.foldl (fun acc f => if acc.contains f then acc else acc ++ [f]) parent1

/-- The file-content assembly loop of `send_message`: for every tracked
file that exists, `open(each_file).read()` — this loop sits OUTSIDE the
`try`, so a read failure (`Except.error`, e.g. a `UnicodeDecodeError` on a
non-UTF-8 file) is an exception that propagates out of `send_message`. -/
def read_file_blocks (pathExists : String → Bool)
    (readFile : String → Except String String)
    (files : List (String × String)) : Except String (List String) :=
  files.foldlM
    (fun (acc : List String) it =>
      if pathExists it.1 then do
        let content ← readFile it.1
        pure (acc ++ ["=== FILE: " ++ pyBasename it.1 ++ " ===\n" ++ content ++ "\n"])
      else pure acc) ([] : List String)

/-- `azure_gateway_provider.send_message`.  Oracles: `mkName` for
`parent.make_ash_cloud_name`, `pathExists` for `os.path.exists`,
`readFile` for `open(...).read()`, `api` for the outcome of
`chat.completions.create` (the answer plus `response.usage`, or the
caught exception's description). -/
def send_message (st : azure_state)
    (mkName : String → String) (pathExists : String → Bool)
    (readFile : String → Except String String)
    (api : Except String (String × Option (Nat × Nat × Nat)))
    (prompt _intro_prompt : String)
    (input_file_list delete_file_list : List String) :
    Except String ((String × Nat × Nat × Nat) × azure_state) :=
  let files2 := files_after st mkName input_file_list delete_file_list
  let parent2 := parent_after st input_file_list delete_file_list
  match read_file_blocks pathExists readFile files2 with
  | .error exc => .error exc
  | .ok _file_blocks =>
    match api with
    | .ok (answer, usage) =>
      let pt := (usage.getD (0, 0, 0)).1
      let ct := (usage.getD (0, 0, 0)).2.1
      let tt := (usage.getD (0, 0, 0)).2.2
      .ok ((answer, pt, ct, tt),
        { session_files := files2,
          history := st.history ++ [("user", prompt), ("assistant", answer)],
          parent_files := parent2 })
    | .error e =>
      .ok (("AI error (Azure): " ++ e, 0, 0, 0),
        { session_files := files2, history := st.history, parent_files := parent2 })

end azure_gateway_provider

structure gemini_state where
  session_files : List (String × String)
  parent_files : List String
deriving DecidableEq, Repr

namespace gemini_provider

/-- `gemini_provider.delete_file`.  `cloudDelete obj` tells whether
`client.files.delete(name=obj)` succeeds; on failure the entry is kept. -/
def delete_file (cloudDelete : String → Bool) (st : gemini_state) (path : String) :
    gemini_state :=
  let found := st.session_files.any fun it => it.1 = path && cloudDelete it.2
  { session_files := st.session_files.filter fun it => !(it.1 = path && cloudDelete it.2),
    parent_files :=
      if found then st.parent_files.filter (fun p => p ≠ path) else st.parent_files }

/-- `gemini_provider.send_message`.  Oracles: `upload path name` for
`client.files.upload` (failure is caught and the file skipped), `api` for
the outcome of `chat.send_message` together with `response.text` and
`response.usage_metadata` (`prompt`, `candidates`, `total` counts); an
`api` error is the caught exception's description.  Every failure is
handled, so the function is total: nothing escapes this boundary. -/
def send_message (st : gemini_state)
    (mkName : String → String) (pathExists : String → Bool)
    (cloudDelete : String → Bool)
    (upload : String → String → Except String String)
    (api : Except String (String × Option (Nat × Nat × Nat)))
    (_prompt _intro_prompt : String)
    (input_file_list delete_file_list : List String) :
    (String × Nat × Nat × Nat) × gemini_state :=
  let st1 := delete_file_list.foldl (delete_file cloudDelete) st
  let st2 := input_file_list.foldl
    (fun (acc : gemini_state) f =>
      let acc :=
        { acc with parent_files :=
            if acc.parent_files.contains f then acc.parent_files else acc.parent_files ++ [f] }
      if acc.session_files.any (fun it => it.1 = f) then acc
      else if !pathExists f then acc
      else
        match upload f (mkName f) with
        | .ok obj => { acc with session_files := acc.session_files ++ [(f, obj)] }
        | .error _ => acc) st1
  match api with
  | .ok (text, usage) =>
    let pt := (usage.getD (0, 0, 0)).1
    let ct := (usage.getD (0, 0, 0)).2.1
    let tt := (usage.getD (0, 0, 0)).2.2
    ((pyStrip text, pt, ct, tt), st2)
  | .error e => (("AI error (Gemini): " ++ e, 0, 0, 0), st2)

end gemini_provider

/-! ### Session file commands (`delete_session_file`, `handle_file_commands`) -/

/-- Python `str.endswith(suffix)`. -/
def pyEndsWith (s suffix : String) : Bool :=
  suffix.toList.reverse.isPrefixOf s.toList.reverse

/-- `api_eda_ai_assist.delete_session_file` restricted to its effect on
`self.session_file_list`: `list.remove` drops the first occurrence when
present (the provider-side cloud deletion is an external side effect). -/
def delete_session_file (files : List String) (filename : String) : List String :=
  files.erase filename

/-- `api_eda_ai_assist.handle_file_commands`.  Returns
`(handled, new session_file_list, printed lines)`. -/
def handle_file_commands (files : List String) (line : String) :
    Bool × List String × List String :=
  let tokens := pySplitWs line
  match tokens with
  | [] => (false, files, [])
  | t0 :: _ =>
    let cmd := pyLower t0
    if cmd = "delete" then
      if tokens.length = 2 && tokens.getD 1 "" = "*" then
        if files.isEmpty then (true, files, ["No session files to delete."])
        else
          (true, files.foldl delete_session_file files,
            (files.map fun f => "Deleted " ++ f) ++ ["Deleted all session files."])
      else if tokens.length ≥ 2 then
        if tokens.getD 1 "" = "file" && tokens.length < 3 then
          (true, files, ["Usage: delete file <name>"])
        else
          let target := if tokens.getD 1 "" = "file" then tokens.getD 2 "" else tokens.getD 1 ""
          let matched := files.filter fun f => pyEndsWith f target
          if matched.isEmpty then (true, files, ["No such file in session: " ++ target])
          else
            (true, matched.foldl delete_session_file files, matched.map fun f => "Deleted " ++ f)
      else (false, files, [])
    else if cmd = "list" then
      if tokens.length = 1 || tokens.getD 1 "" = "files" || tokens.getD 1 "" = "*" then
        if files.isEmpty then (true, files, ["No session files."]) else (true, files, files)
      else
        let target := tokens.getD 1 ""
        let matched := files.filter fun f => pyEndsWith f target
        if matched.isEmpty then (true, files, ["No such file in session: " ++ target])
        else (true, files, matched)
    else (false, files, [])

/-! ### Claim C1 -/

/-- Claim C1, counterexample to the claim as stated: when the limit is hit,
`ask_ai_model` returns the terminal notice and the CRITICAL warning set, but
the response text produced by that round trip ("the last response") is
discarded — it appears neither as the returned text nor among the warnings,
contradicting "returns the terminal notice alongside the warnings and the
last successfully produced response text". -/
theorem C1_response_text_discarded :
    ask_ai_model ⟨0, 0, 0, true⟩ "the last response" 0 0 5000000 =
      (terminalNotice, criticalWarnings 5000000, ⟨0, 0, 0, false⟩) ∧
    terminalNotice ≠ "the last response" ∧
    "the last response" ∉ criticalWarnings 5000000 :=
  ⟨by rfl, by decide, by decide⟩

/-- Claim C1 (amended): for every session state with a provider attached and
every completed provider round trip after which the cumulative total token
counter is at least 5,000,000 (`ASH_TOKEN_LIMIT`), `ask_ai_model` emits the
CRITICAL warning set, forces the session closed (all three token counters
reset to zero and the provider detached), and returns the terminal notice
alongside the warnings (the round trip's response text is discarded). -/
theorem C1_token_limit_forces_session_close
    (st : AshState) (text : String) (pt ct tt : Nat)
    (hopen : st.providerOpen = true)
    (hlim : ASH_TOKEN_LIMIT ≤ st.token_cnt_total + tt) :
    ask_ai_model st text pt ct tt =
      (terminalNotice, criticalWarnings (st.token_cnt_total + tt), ⟨0, 0, 0, false⟩) := by
  simp [ask_ai_model, close_ai_session, hlim, hopen]

/-- Witness for `C1_token_limit_forces_session_close` at a concrete input. -/
theorem C1_token_limit_forces_session_close_witness :
    (⟨0, 0, 0, true⟩ : AshState).providerOpen = true ∧
    ASH_TOKEN_LIMIT ≤ 0 + 5000000 ∧
    ask_ai_model ⟨0, 0, 0, true⟩ "resp" 2 3 5000000 =
      (terminalNotice, criticalWarnings (0 + 5000000), ⟨0, 0, 0, false⟩) :=
  ⟨rfl, by decide,
    C1_token_limit_forces_session_close ⟨0, 0, 0, true⟩ "resp" 2 3 5000000 rfl (by decide)⟩

/-! ### Claim C2 -/

/-- Claim C2, counterexample to the claim as stated: the code adds the
provider's reported `total_tokens` to its own counter independently of
`prompt_tokens`/`completion_tokens`, so after a round trip reporting
`(1, 1, 5)` the invariant `totalTokens == uploadTokens + downloadTokens`
fails (5 ≠ 1 + 1). -/
theorem C2_invariant_fails_on_inconsistent_usage :
    ¬ (((ask_ai_model ⟨0, 0, 0, true⟩ "ok" 1 1 5).2.2).token_cnt_total =
        ((ask_ai_model ⟨0, 0, 0, true⟩ "ok" 1 1 5).2.2).token_cnt_upload +
          ((ask_ai_model ⟨0, 0, 0, true⟩ "ok" 1 1 5).2.2).token_cnt_download) := by
  decide

/-- Claim C2 (amended): after every counter update the invariant
`totalTokens = uploadTokens + downloadTokens` holds PROVIDED the provider
round trip reports `total_tokens = prompt_tokens + completion_tokens`;
the counters are monotonically non-decreasing across `ask_ai_model` except
when the limit branch closes the session through `close_ai_session`; and
`open_ai_session` / `close_ai_session` reset all three counters to zero. -/
theorem C2_counter_discipline :
    (∀ (st : AshState) (text : String) (pt ct tt : Nat),
        tt = pt + ct →
        st.token_cnt_total = st.token_cnt_upload + st.token_cnt_download →
        ((ask_ai_model st text pt ct tt).2.2).token_cnt_total =
          ((ask_ai_model st text pt ct tt).2.2).token_cnt_upload +
            ((ask_ai_model st text pt ct tt).2.2).token_cnt_download) ∧
    (∀ (st : AshState) (text : String) (pt ct tt : Nat),
        (ask_ai_model st text pt ct tt).2.2 =
            close_ai_session
              ⟨st.token_cnt_upload + pt, st.token_cnt_download + ct,
                st.token_cnt_total + tt, st.providerOpen⟩ ∨
          (st.token_cnt_upload ≤ ((ask_ai_model st text pt ct tt).2.2).token_cnt_upload ∧
            st.token_cnt_download ≤ ((ask_ai_model st text pt ct tt).2.2).token_cnt_download ∧
            st.token_cnt_total ≤ ((ask_ai_model st text pt ct tt).2.2).token_cnt_total ∧
            ((ask_ai_model st text pt ct tt).2.2).providerOpen = st.providerOpen)) ∧
    (∀ st : AshState, open_ai_session true st = ⟨0, 0, 0, true⟩) ∧
    (∀ st : AshState, st.providerOpen = true → close_ai_session st = ⟨0, 0, 0, false⟩) := by
  refine ⟨?_, ?_, ?_, ?_⟩
  · intro st text pt ct tt htt hinv
    simp only [ask_ai_model, close_ai_session]
    split_ifs <;> simp_all <;> omega
  · intro st text pt ct tt
    simp only [ask_ai_model, close_ai_session]
    split_ifs <;> simp_all
  · intro st; rfl
  · intro st h; simp [close_ai_session, h]

/-- Witness for `C2_counter_discipline` at a concrete input. -/
theorem C2_counter_discipline_witness :
    (2 : Nat) = 1 + 1 ∧
    (⟨0, 0, 0, true⟩ : AshState).token_cnt_total =
      (⟨0, 0, 0, true⟩ : AshState).token_cnt_upload +
        (⟨0, 0, 0, true⟩ : AshState).token_cnt_download ∧
    ((ask_ai_model ⟨0, 0, 0, true⟩ "x" 1 1 2).2.2).token_cnt_total =
      ((ask_ai_model ⟨0, 0, 0, true⟩ "x" 1 1 2).2.2).token_cnt_upload +
        ((ask_ai_model ⟨0, 0, 0, true⟩ "x" 1 1 2).2.2).token_cnt_download :=
  ⟨rfl, rfl, C2_counter_discipline.1 ⟨0, 0, 0, true⟩ "x" 1 1 2 rfl rfl⟩

/-! ### Claim C3 -/

/-- If every read succeeds, the file-content assembly loop of the Azure
adapter succeeds (no exception escapes it). -/
theorem read_file_blocks_ok (pathExists : String → Bool)
    (readFile : String → Except String String)
    (hread : ∀ p, ∃ c, readFile p = Except.ok c) :
    ∀ files : List (String × String),
      ∃ b, azure_gateway_provider.read_file_blocks pathExists readFile files = .ok b := by
  have step : ∀ (acc : List String) (it : String × String),
      ∃ b, (if pathExists it.1 then do
          let content ← readFile it.1
          pure (acc ++ ["=== FILE: " ++ pyBasename it.1 ++ " ===\n" ++ content ++ "\n"])
        else pure acc : Except String (List String)) = .ok b := by
    intro acc it
    by_cases hp : pathExists it.1
    · obtain ⟨c, hc⟩ := hread it.1
      exact ⟨acc ++ ["=== FILE: " ++ pyBasename it.1 ++ " ===\n" ++ c ++ "\n"],
        by rw [if_pos hp, hc]; rfl⟩
    · exact ⟨acc, by rw [if_neg hp]; rfl⟩
  have gen : ∀ (files : List (String × String)) (acc : List String),
      ∃ b, files.foldlM
        (fun (acc : List String) it =>
          if pathExists it.1 then do
            let content ← readFile it.1
            pure (acc ++ ["=== FILE: " ++ pyBasename it.1 ++ " ===\n" ++ content ++ "\n"])
          else pure acc) acc = .ok b := by
    intro files
    induction files with
    | nil => intro acc; exact ⟨acc, rfl⟩
    | cons a l ih =>
      intro acc
      obtain ⟨b, hb⟩ := step acc a
      obtain ⟨c, hc⟩ := ih b
      refine ⟨c, ?_⟩
      rw [List.foldlM_cons, hb]
      simpa using hc
  intro files
  exact gen files []

/-- Claim C3, counterexample to the claim as stated: in the Azure adapter
the per-file `open(each_file).read()` happens outside the `try` block, so a
read failure (here a `UnicodeDecodeError` on an existing but non-UTF-8
tracked file) escapes `send_message` as an exception instead of being
returned as an error string with zero token counts. -/
theorem C3_azure_read_failure_escapes :
    azure_gateway_provider.send_message ⟨[], [], []⟩ (fun s => s) (fun _ => true)
        (fun _ => .error "UnicodeDecodeError: invalid start byte")
        (.ok ("unused", none)) "p" "i" ["f.bin"] [] =
      .error "UnicodeDecodeError: invalid start byte" := by rfl

/-- Claim C3 (amended): a failure of the model API call itself is caught at
the provider boundary and surfaced as a descriptive error string with all
three token counts zero — for Gemini unconditionally (its `send_message` is
total: uploads and cloud deletes are individually guarded and the
request/response handling is inside the `try`), and for Azure whenever the
tracked-file content reads succeed; an Azure tracked-file read failure,
however, escapes the boundary (see `C3_azure_read_failure_escapes`). -/
theorem C3_api_failure_returns_error_text_with_zero_usage :
    (∀ (st : gemini_state) (mkName : String → String)
        (pathExists cloudDelete : String → Bool)
        (upload : String → String → Except String String) (e prompt intro : String)
        (inputs deletes : List String),
        (gemini_provider.send_message st mkName pathExists cloudDelete upload (.error e)
            prompt intro inputs deletes).1 =
          ("AI error (Gemini): " ++ e, 0, 0, 0)) ∧
    (∀ (st : azure_state) (mkName : String → String) (pathExists : String → Bool)
        (readFile : String → Except String String) (e prompt intro : String)
        (inputs deletes : List String),
        (∀ p, ∃ c, readFile p = Except.ok c) →
        ∃ st', azure_gateway_provider.send_message st mkName pathExists readFile (.error e)
            prompt intro inputs deletes =
          .ok (("AI error (Azure): " ++ e, 0, 0, 0), st')) := by
  constructor
  · intro st mkName pathExists cloudDelete upload e prompt intro inputs deletes
    rfl
  · intro st mkName pathExists readFile e prompt intro inputs deletes hread
    obtain ⟨b, hb⟩ := read_file_blocks_ok pathExists readFile hread
      (azure_gateway_provider.files_after st mkName inputs deletes)
    exact ⟨⟨azure_gateway_provider.files_after st mkName inputs deletes, st.history,
        azure_gateway_provider.parent_after st inputs deletes⟩,
      by simp only [azure_gateway_provider.send_message, hb]⟩

/-- Witness for `C3_api_failure_returns_error_text_with_zero_usage` at a
concrete input (Azure branch, every read succeeding). -/
theorem C3_api_failure_witness :
    (∀ p, ∃ c, (fun _ : String => (Except.ok "data" : Except String String)) p = .ok c) ∧
    ∃ st', azure_gateway_provider.send_message ⟨[], [], []⟩ (fun s => s) (fun _ => true)
        (fun _ => .ok "data") (.error "Timeout") "p" "i" ["f.txt"] [] =
      .ok (("AI error (Azure): " ++ "Timeout", 0, 0, 0), st') :=
  ⟨fun _ => ⟨"data", rfl⟩,
    C3_api_failure_returns_error_text_with_zero_usage.2 ⟨[], [], []⟩ (fun s => s)
      (fun _ => true) (fun _ => .ok "data") "Timeout" "p" "i" ["f.txt"] []
      (fun _ => ⟨"data", rfl⟩)⟩

/-! ### Claim C4 -/

/-- Claim C4 (code-bug evidence): with `find` available on PATH, the code
classifies "find ./foo -name bar" as an AI request, while the claim (and
the spec's own §8 example) says ShellCommand.  Mechanism: "find" is itself
a member of `AI_TRIGGERS`, so step 2 fires before the ambiguous-verb
analysis of step 4 is ever reached; independently, the per-token
`strip(string.punctuation)` turns "./foo" into "foo" and "-name" into
"name", so the `looks_like_flag`/`looks_like_path` shape tests of step 4
can never see a leading "-" or "./".  "find the largest file" is also
classified as an AI request (the claim's expected value), again via step 2
rather than via the natural-leading-word rule. -/
theorem C4_find_examples_classified_ai :
    is_ai_request (fun s => s = "find") "find ./foo -name bar" = true ∧
    is_ai_request (fun s => s = "find") "find the largest file" = true ∧
    pyStripPunct "./foo" = "foo" ∧
    pyStripPunct "-name" = "name" ∧
    looks_like_flag (pyStripPunct "-name") = false ∧
    looks_like_path (pyStripPunct "./foo") = false :=
  ⟨by rfl, by rfl, by rfl, by rfl, by rfl, by rfl⟩

/-! ### Claim C6 -/

/-- Claim C6: whenever the resolved output path names an already-existing
file, `ask_ai` returns the refusal message with no warnings, performs no
provider call, and writes nothing (the effect list is empty), so the
existing file's bytes are untouched. -/
theorem C6_existing_output_refused
    (expand : String → String) (pathExists isfile : String → Bool)
    (intro_prompt : String) (providerOpen : Bool)
    (modelCall : String → String → List String → List String → String × List String)
    (writeOk : String → Bool) (sizeStr : String → String)
    (prompt f : String)
    (hout : ai_output_file expand prompt = some f)
    (hex : pathExists f = true) :
    ask_ai expand pathExists isfile intro_prompt providerOpen modelCall writeOk sizeStr
        prompt =
      (some (outputExistsRefusal f, []), []) := by
  unfold ask_ai
  rw [hout]
  simp [hex]

/-- Witness for `C6_existing_output_refused` at a concrete input. -/
theorem C6_existing_output_refused_witness :
    ai_output_file (fun s => s) "write to out.txt" = some "out.txt" ∧
    (fun _ : String => true) "out.txt" = true ∧
    ask_ai (fun s => s) (fun _ => true) (fun _ => true) "intro" true
        (fun _ _ _ _ => ("r", [])) (fun _ => true) (fun _ => "sz") "write to out.txt" =
      (some (outputExistsRefusal "out.txt", []), []) :=
  ⟨by rfl, rfl,
    C6_existing_output_refused (fun s => s) (fun _ => true) (fun _ => true) "intro" true
      (fun _ _ _ _ => ("r", [])) (fun _ => true) (fun _ => "sz") "write to out.txt"
      "out.txt" (by rfl) rfl⟩

/-! ### Claim C7 -/

/-- Claim C7, counterexample to the claim as stated: for the quoted
candidate token `"foo."` the trailing period inside the quotes is NOT
preserved — the resolver returns `foo`, not `foo.`. -/
theorem C7_quoted_trailing_period_not_preserved :
    ai_output_file (fun s => s) "write to \"foo.\"" = some "foo" ∧
    (some "foo" : Option String) ≠ some "foo." :=
  ⟨by rfl, by decide⟩

/-- Claim C7 (amended): the output-file resolver strips a trailing sentence
period from the candidate token whether or not the token is quoted: the
initial `strip_trailing_punct` (`rstrip(".,;:!?)]}'\"")`) already removes
trailing periods and quote characters unconditionally, so the later
quoted-only guard never sees one.  Representative instance: both
`write to foo.` and `write to "foo."` resolve to (the expansion of)
`foo`. -/
theorem C7_trailing_period_stripped_quoted_or_not (expand : String → String) :
    ai_output_file expand "write to \"foo.\"" = some (expand "foo") ∧
    ai_output_file expand "write to foo." = some (expand "foo") :=
  ⟨rfl, rfl⟩

/-! ### Claim C5 -/

theorem mem_insertSpan (x y : Nat × Nat × Bool) (l : List (Nat × Nat × Bool)) :
    y ∈ insertSpan x l ↔ y = x ∨ y ∈ l := by
  induction l with
  | nil => simp [insertSpan]
  | cons a l ih =>
    simp only [insertSpan]
    split_ifs
    · simp [List.mem_cons]
    · simp only [List.mem_cons, ih]
      tauto

theorem mem_sortSpans (y : Nat × Nat × Bool) (l : List (Nat × Nat × Bool)) :
    y ∈ sortSpans l ↔ y ∈ l := by
  induction l with
  | nil => simp [sortSpans]
  | cons a l ih => simp [sortSpans, mem_insertSpan, ih]

/-- Claim C5: for `delete file foo.txt` with `foo.txt` an existing regular
file, the extractor returns delete list `["foo.txt"]` and an empty input
list (the add-trigger "file" at offset 7 starts inside the delete-trigger
span `[0, 11)` and is discarded); and in general no add-trigger match whose
start falls inside a delete-trigger span survives into the merged match
list — delete intent shadows add intent for that occurrence. -/
theorem C5_delete_shadows_add :
    (∀ (expand : String → String) (isfile : String → Bool),
        expand "foo.txt" = "foo.txt" → isfile "foo.txt" = true →
        ai_input_files expand isfile "delete file foo.txt" none true = ([], ["foo.txt"])) ∧
    (∀ (prompt : String) (s e : Nat),
        (s, e, false) ∈ combinedMatches prompt.toList →
        ∀ d ∈ scanMatches delTrigAt prompt.toList, ¬ (d.1 ≤ s ∧ s < d.2)) := by
  constructor
  · intro expand isfile h1 h2
    have base : ai_input_files expand isfile "delete file foo.txt" none true =
        (if isfile (expand "foo.txt") then ([], [expand "foo.txt"]) else ([], [])) := rfl
    rw [h1, h2] at base
    simpa using base
  · intro prompt s e hmem d hd hcon
    simp only [combinedMatches] at hmem
    rw [mem_sortSpans] at hmem
    rcases List.mem_append.1 hmem with h | h
    · obtain ⟨m, hm, heq⟩ := List.mem_map.1 h
      obtain ⟨hm1, hm2⟩ := List.mem_filter.1 hm
      have hms : m.1 = s := congrArg (fun z => z.1) heq
      simp only [Bool.not_eq_true', List.any_eq_false] at hm2
      have hnd := hm2 d hd
      rw [hms] at hnd
      simp only [Bool.and_eq_true, decide_eq_true_eq, not_and] at hnd
      exact hnd hcon.1 hcon.2
    · obtain ⟨m, hm, heq⟩ := List.mem_map.1 h
      simp at heq

/-- Witness for `C5_delete_shadows_add` at a concrete input. -/
theorem C5_delete_shadows_add_witness :
    (fun s : String => s) "foo.txt" = "foo.txt" ∧
    (fun _ : String => true) "foo.txt" = true ∧
    ai_input_files (fun s => s) (fun _ => true) "delete file foo.txt" none true =
      ([], ["foo.txt"]) :=
  ⟨rfl, rfl, C5_delete_shadows_add.1 (fun s => s) (fun _ => true) rfl rfl⟩

/-! ### Claim C10 -/

theorem foldl_erase_not_mem (m : List String) (x : String) (xs : List String)
    (hx : ∀ y ∈ m, y ≠ x) :
    m.foldl delete_session_file (x :: xs) = x :: m.foldl delete_session_file xs := by
  induction m generalizing xs with
  | nil => rfl
  | cons a m ih =>
    simp only [List.foldl_cons, delete_session_file]
    rw [List.erase_cons_tail (by simp [Ne.symm (hx a (by simp))])]
    exact ih _ fun y hy => hx y (List.mem_cons_of_mem a hy)

/-- Removing (one by one) every entry of `l.filter p` from `l` leaves
exactly `l.filter (!p)`. -/
theorem foldl_erase_filter (p : String → Bool) (l : List String) :
    (l.filter p).foldl delete_session_file l = l.filter (fun f => !p f) := by
  induction l with
  | nil => rfl
  | cons x xs ih =>
    by_cases hp : p x
    · rw [List.filter_cons, if_pos hp, List.foldl_cons]
      show (xs.filter p).foldl delete_session_file ((x :: xs).erase x) = _
      rw [List.erase_cons_head, ih, List.filter_cons]
      simp [hp]
    · have hmem : ∀ y ∈ xs.filter p, y ≠ x := by
        intro y hy he
        exact hp (he ▸ List.of_mem_filter hy)
      rw [List.filter_cons, if_neg (by simpa using hp),
        foldl_erase_not_mem _ x xs hmem, ih, List.filter_cons]
      simp [hp]

theorem splitWsGo_no_ws (t : List Char) (h : ∀ c ∈ t, ¬ c.isWhitespace) :
    ∀ acc : List Char,
      splitWsGo t acc =
        if (acc.reverse ++ t).isEmpty then [] else [String.mk (acc.reverse ++ t)] := by
  induction t with
  | nil => intro acc; simp [splitWsGo]
  | cons c cs ih =>
    intro acc
    have hc : ¬ c.isWhitespace = true := h c (by simp)
    simp only [splitWsGo, hc, if_neg, Bool.false_eq_true]
    rw [ih (fun d hd => h d (by simp [hd])) (c :: acc)]
    simp

/-- `("delete " ++ t).split()` is `["delete", t]` for a non-empty
whitespace-free `t`. -/
theorem pySplitWs_delete_prefix (t : String)
    (hne : t.toList ≠ []) (hws : ∀ c ∈ t.toList, ¬ c.isWhitespace) :
    pySplitWs ("delete " ++ t) = ["delete", t] := by
  have htl : ("delete " ++ t).toList =
      'd' :: 'e' :: 'l' :: 'e' :: 't' :: 'e' :: ' ' :: t.toList := by
    show ("delete " ++ t).data = _
    rw [String.data_append]; rfl
  have hstep : splitWsGo ('d' :: 'e' :: 'l' :: 'e' :: 't' :: 'e' :: ' ' :: t.toList) [] =
      "delete" :: splitWsGo t.toList [] := rfl
  rw [pySplitWs, pySplitWsL, htl, hstep, splitWsGo_no_ws t.toList hws []]
  simp only [List.reverse_nil, List.nil_append, List.isEmpty_eq_true, hne, if_false]
  rfl

/-- Claim C10: for a session file list and a command `delete <target>`
(single-token target, neither `*` nor `file`), `handle_file_commands`
handles the line, removes exactly the entries whose path string ends with
the target (suffix match), and when nothing matches it reports
"No such file in session" and leaves the list unchanged. -/
theorem C10_delete_removes_suffix_matches
    (files : List String) (t : String)
    (hne : t.toList ≠ []) (hws : ∀ c ∈ t.toList, ¬ c.isWhitespace)
    (hstar : t ≠ "*") (hfile : t ≠ "file") :
    (handle_file_commands files ("delete " ++ t)).1 = true ∧
    (handle_file_commands files ("delete " ++ t)).2.1 =
      files.filter (fun f => !pyEndsWith f t) ∧
    (files.filter (fun f => pyEndsWith f t) = [] →
      (handle_file_commands files ("delete " ++ t)).2.1 = files ∧
      (handle_file_commands files ("delete " ++ t)).2.2 =
        ["No such file in session: " ++ t]) := by
  have hsplit := pySplitWs_delete_prefix t hne hws
  have hcmd : handle_file_commands files ("delete " ++ t) =
      (let matched := files.filter fun f => pyEndsWith f t
       if matched.isEmpty then (true, files, ["No such file in session: " ++ t])
       else (true, matched.foldl delete_session_file files,
         matched.map fun f => "Deleted " ++ f)) := by
    unfold handle_file_commands
    rw [hsplit]
    simp [pyLower, hstar, hfile]
  by_cases hm : files.filter (fun f => pyEndsWith f t) = []
  · rw [hcmd]
    simp only [hm, List.isEmpty_nil, if_pos]
    refine ⟨trivial, ?_, fun _ => ⟨trivial, trivial⟩⟩
    have : ∀ f ∈ files, (!pyEndsWith f t) = true := by
      intro f hf
      by_contra hcon
      have hp : pyEndsWith f t = true := by
        revert hcon; cases pyEndsWith f t <;> simp
      exact (List.ne_nil_of_mem (List.mem_filter.2 ⟨hf, hp⟩)) hm
    exact (List.filter_eq_self.2 this).symm
  · rw [hcmd]
    have : (files.filter fun f => pyEndsWith f t).isEmpty = false := by
      cases he : files.filter fun f => pyEndsWith f t
      · exact absurd he hm
      · rfl
    simp only [this, Bool.false_eq_true, if_false]
    exact ⟨trivial, foldl_erase_filter _ files, fun hc => absurd hc hm⟩

/-- Witness for `C10_delete_removes_suffix_matches` at a concrete input. -/
theorem C10_delete_removes_suffix_matches_witness :
    "a.txt".toList ≠ [] ∧
    (handle_file_commands ["dir/a.txt", "b.log", "x/a.txt"] ("delete " ++ "a.txt")).2.1 =
      ["dir/a.txt", "b.log", "x/a.txt"].filter (fun f => !pyEndsWith f "a.txt") :=
  ⟨by decide,
    (C10_delete_removes_suffix_matches ["dir/a.txt", "b.log", "x/a.txt"] "a.txt"
      (by decide) (by decide) (by decide) (by decide)).2.1⟩

/-! ### Claim C9 -/

theorem hexDigitChar_spec (d : Nat) (hd : d < 16) :
    isHexDig (hexDigitChar d) = true ∧ (hexDigitChar d).toLower = hexDigitChar d ∧
      hexCharVal (hexDigitChar d) = d := by
  interval_cases d <;> exact ⟨by decide, by decide, by decide⟩

theorem hexValL_hex8 (m : Nat) (hm : m < 2 ^ 32) : hexValL (hex8 m) = m := by
  have h16 : ∀ k : Nat, m / 16 ^ k % 16 < 16 := fun k => Nat.mod_lt _ (by norm_num)
  have h0 : m % 16 < 16 := Nat.mod_lt _ (by norm_num)
  simp only [hexValL, hex8, List.foldl,
    (hexDigitChar_spec _ (h16 7)).2.2, (hexDigitChar_spec _ (h16 6)).2.2,
    (hexDigitChar_spec _ (h16 5)).2.2, (hexDigitChar_spec _ (h16 4)).2.2,
    (hexDigitChar_spec _ (h16 3)).2.2, (hexDigitChar_spec _ (h16 2)).2.2,
    (hexDigitChar_spec _ (h16 1)).2.2, (hexDigitChar_spec _ h0).2.2]
  norm_num at hm ⊢
  omega

theorem hex8_all_isHexDig (n : Nat) : (hex8 n).all isHexDig = true := by
  have h16 : ∀ k : Nat, n / 16 ^ k % 16 < 16 := fun k => Nat.mod_lt _ (by norm_num)
  have h0 : n % 16 < 16 := Nat.mod_lt _ (by norm_num)
  simp only [hex8, List.all_cons, List.all_nil,
    (hexDigitChar_spec _ (h16 7)).1, (hexDigitChar_spec _ (h16 6)).1,
    (hexDigitChar_spec _ (h16 5)).1, (hexDigitChar_spec _ (h16 4)).1,
    (hexDigitChar_spec _ (h16 3)).1, (hexDigitChar_spec _ (h16 2)).1,
    (hexDigitChar_spec _ (h16 1)).1, (hexDigitChar_spec _ h0).1, Bool.and_self]

theorem hex8_map_toLower (n : Nat) : (hex8 n).map Char.toLower = hex8 n := by
  have h16 : ∀ k : Nat, n / 16 ^ k % 16 < 16 := fun k => Nat.mod_lt _ (by norm_num)
  have h0 : n % 16 < 16 := Nat.mod_lt _ (by norm_num)
  simp only [hex8, List.map_cons, List.map_nil,
    (hexDigitChar_spec _ (h16 7)).2.1, (hexDigitChar_spec _ (h16 6)).2.1,
    (hexDigitChar_spec _ (h16 5)).2.1, (hexDigitChar_spec _ (h16 4)).2.1,
    (hexDigitChar_spec _ (h16 3)).2.1, (hexDigitChar_spec _ (h16 2)).2.1,
    (hexDigitChar_spec _ (h16 1)).2.1, (hexDigitChar_spec _ h0).2.1]

/-- The lowercase hex alphabet produced by `hashlib.sha1(...).hexdigest()`. -/
def hexLowerChars : List Char :=
  "0123456789abcdef".toList

theorem hexLowerChar_spec (c : Char) (h : c ∈ hexLowerChars) :
    Char.toLower c = c ∧ isHexDig c = true := by
  fin_cases h <;> exact ⟨by decide, by decide⟩

theorem map_toLower_of_hexLower (l : List Char) (h : ∀ c ∈ l, c ∈ hexLowerChars) :
    l.map Char.toLower = l := by
  induction l with
  | nil => rfl
  | cons c cs ih =>
    rw [List.map_cons, (hexLowerChar_spec c (h c (by simp))).1,
      ih fun d hd => h d (by simp [hd])]

theorem all_isHexDig_of_hexLower (l : List Char) (h : ∀ c ∈ l, c ∈ hexLowerChars) :
    l.all isHexDig = true := by
  rw [List.all_eq_true]
  exact fun c hc => (hexLowerChar_spec c (h c hc)).2

theorem chopHex8_exact (h rest : List Char) (hl : h.length = 8)
    (hh : h.all isHexDig = true) :
    chopHex8 (h ++ '_' :: rest) = some (h, rest) := by
  have htake : (h ++ '_' :: rest).take 8 = h := List.take_left' hl
  have hdrop : (h ++ '_' :: rest).drop 8 = '_' :: rest := List.drop_left' hl
  have hdrop9 : (h ++ '_' :: rest).drop 9 = rest := by
    have h9 : h ++ '_' :: rest = (h ++ ['_']) ++ rest := by simp
    rw [h9]
    exact List.drop_left' (by simp [hl])
  unfold chopHex8
  rw [htake, hdrop, hdrop9, if_pos (by simp [hl, hh])]

/-- Parsing a generated cloud name recovers its components. -/
theorem ashNameParts_make (ts pid : Nat) (host_tok path : String)
    (hlen : host_tok.toList.length = 8)
    (hhex : ∀ c ∈ host_tok.toList, c ∈ hexLowerChars)
    (hne : (pyBasename path).toList ≠ [])
    (hnl : (pyBasename path).toList.contains '\n' = false) :
    ashNameParts (make_ash_cloud_name ts pid host_tok path).toList =
      some (hex8 (ts % 2 ^ 32), hex8 (pid % 2 ^ 32), host_tok.toList,
        (pyBasename path).toList) := by
  have hall : host_tok.toList.all isHexDig = true := all_isHexDig_of_hexLower _ hhex
  have h4 : dotPlusEnd (pyBasename path).toList = true := by
    have hn : '\n' ∉ (pyBasename path).toList := by simpa using hnl
    simp only [dotPlusEnd, Bool.and_eq_true, Bool.or_eq_true, Bool.not_eq_true']
    refine ⟨?_, Or.inl ?_⟩
    · simpa using hne
    · simpa using hn
  have hmk : (make_ash_cloud_name ts pid host_tok path).toList =
      'a' :: 's' :: 'h' :: '_' ::
        (hex8 (ts % 2 ^ 32) ++ '_' ::
          (hex8 (pid % 2 ^ 32) ++ '_' ::
            (host_tok.toList ++ '_' :: (pyBasename path).toList))) := rfl
  rw [hmk]
  unfold ashNameParts
  rw [if_pos (by rfl)]
  rw [show ('a' :: 's' :: 'h' :: '_' ::
        (hex8 (ts % 2 ^ 32) ++ '_' ::
          (hex8 (pid % 2 ^ 32) ++ '_' ::
            (host_tok.toList ++ '_' :: (pyBasename path).toList)))).drop 4 =
      hex8 (ts % 2 ^ 32) ++ '_' ::
        (hex8 (pid % 2 ^ 32) ++ '_' ::
          (host_tok.toList ++ '_' :: (pyBasename path).toList)) from rfl]
  rw [chopHex8_exact (hex8 (ts % 2 ^ 32)) _ (by rfl) (hex8_all_isHexDig _), Option.some_bind]
  rw [chopHex8_exact (hex8 (pid % 2 ^ 32)) _ (by rfl) (hex8_all_isHexDig _), Option.some_bind]
  rw [chopHex8_exact _ _ hlen hall, Option.some_bind]
  rw [if_pos h4]

/-- Claim C9, counterexample to the claim as stated: a local path whose
basename contains a newline has a non-empty basename, yet the generated
handle is rejected by `is_ash_file` (the anchored regex's `.+` cannot match
across `\n`), so the round trip fails. -/
theorem C9_newline_basename_fails_roundtrip :
    pyBasename "a\nb" ≠ "" ∧
    is_ash_file (make_ash_cloud_name 0 0 "00000000" "a\nb") = false :=
  ⟨by decide, by rfl⟩

/-- Claim C9 (amended): for every local path whose basename is non-empty
and newline-free, the cloud handle embeds the 8-hex-digit timestamp,
process id and per-host fingerprint and is accepted by `is_ash_file`
(round trip), and `find_old_ash_files` then filters such names by age and
trust level: at level 1 (same process) the handle from the same pid and
host is reclaimed exactly when older than `age_seconds`; at level 3
(any host) any pid/fingerprint reclaims it under the same age test; at
level 0 nothing is ever reclaimed. -/
theorem C9_cloud_name_roundtrip
    (ts pid : Nat) (host_tok path : String)
    (hlen : host_tok.toList.length = 8)
    (hhex : ∀ c ∈ host_tok.toList, c ∈ hexLowerChars)
    (hne : (pyBasename path).toList ≠ [])
    (hnl : (pyBasename path).toList.contains '\n' = false) :
    is_ash_file (make_ash_cloud_name ts pid host_tok path) = true ∧
    (∀ now age_seconds : Nat,
      find_old_ash_files now pid host_tok
          [make_ash_cloud_name ts pid host_tok path] age_seconds 1 =
        (if (age_seconds : Int) < (now : Int) - ((ts % 2 ^ 32 : Nat) : Int) then
          [make_ash_cloud_name ts pid host_tok path] else []) ∧
      (∀ (other_pid : Nat) (other_host : String),
        find_old_ash_files now other_pid other_host
            [make_ash_cloud_name ts pid host_tok path] age_seconds 3 =
          (if (age_seconds : Int) < (now : Int) - ((ts % 2 ^ 32 : Nat) : Int) then
            [make_ash_cloud_name ts pid host_tok path] else [])) ∧
      find_old_ash_files now pid host_tok
          [make_ash_cloud_name ts pid host_tok path] age_seconds 0 = []) := by
  have hparse := ashNameParts_make ts pid host_tok path hlen hhex hne hnl
  have hmod : ts % 2 ^ 32 < 2 ^ 32 := Nat.mod_lt _ (by norm_num)
  have hparse2 : ashNameParts (make_ash_cloud_name ts pid host_tok path).data =
      some (hex8 (ts % 2 ^ 32), hex8 (pid % 2 ^ 32), host_tok.toList,
        (pyBasename path).toList) := hparse
  refine ⟨by simp [is_ash_file, hparse2], ?_⟩
  intro now age_seconds
  refine ⟨?_, ?_, ?_⟩
  · simp only [find_old_ash_files, List.filter_singleton, hparse,
      hex8_map_toLower, map_toLower_of_hexLower _ hhex, hexValL_hex8 _ hmod]
    split_ifs <;> simp_all <;> omega
  · intro other_pid other_host
    simp only [find_old_ash_files, List.filter_singleton, hparse,
      hex8_map_toLower, map_toLower_of_hexLower _ hhex, hexValL_hex8 _ hmod]
    split_ifs <;> simp_all <;> omega
  · simp [find_old_ash_files]

/-- Witness for `C9_cloud_name_roundtrip` at a concrete input. -/
theorem C9_cloud_name_roundtrip_witness :
    "0123abcd".toList.length = 8 ∧
    is_ash_file (make_ash_cloud_name 1700000000 4242 "0123abcd" "/home/u/foo.vcd") = true :=
  ⟨by decide,
    (C9_cloud_name_roundtrip 1700000000 4242 "0123abcd" "/home/u/foo.vcd"
      (by decide) (by decide) (by decide) (by decide)).1⟩

/-! ### Claim C8 -/

theorem pyStripL_no_ws (cs : List Char) (h : ∀ c ∈ cs, c.isWhitespace = false) :
    pyStripL cs = cs := by
  have h1 : cs.dropWhile Char.isWhitespace = cs := by
    cases cs with
    | nil => rfl
    | cons c l => exact List.dropWhile_cons_of_neg (by simp [h c (by simp)])
  have h2 : cs.reverse.dropWhile Char.isWhitespace = cs.reverse := by
    cases hr : cs.reverse with
    | nil => rfl
    | cons c l =>
      have hc : c ∈ cs := by rw [← List.mem_reverse, hr]; simp
      exact List.dropWhile_cons_of_neg (by simp [h c hc])
  rw [pyStripL, h1, h2, List.reverse_reverse]

theorem digitChar_facts (c : Char) (h : c.isDigit = true) :
    c.isWhitespace = false ∧ c ≠ '-' ∧ c ≠ '+' ∧ c ≠ '!' := by
  simp only [Char.isDigit, Bool.and_eq_true, decide_eq_true_eq] at h
  obtain ⟨h1, h2⟩ := h
  refine ⟨?_, ?_, ?_, ?_⟩
  · simp only [Char.isWhitespace, Bool.or_eq_false_iff, decide_eq_false_iff_not]
    refine ⟨⟨⟨?_, ?_⟩, ?_⟩, ?_⟩ <;> (rintro rfl; simp_all)
  all_goals (rintro rfl; simp_all)

theorem lowerChar_facts (c : Char) (h : c.isLower = true) :
    c.isWhitespace = false ∧ c.isDigit = false ∧ c ≠ '-' ∧ c ≠ '!' := by
  simp only [Char.isLower, Bool.and_eq_true, decide_eq_true_eq] at h
  obtain ⟨h1, h2⟩ := h
  refine ⟨?_, ?_, ?_, ?_⟩
  · simp only [Char.isWhitespace, Bool.or_eq_false_iff, decide_eq_false_iff_not]
    refine ⟨⟨⟨?_, ?_⟩, ?_⟩, ?_⟩ <;> (rintro rfl; simp_all)
  · simp only [Char.isDigit, Bool.and_eq_false_iff, decide_eq_false_iff_not]
    right
    intro h57
    change c.val.toBitVec ≤ (57 : UInt32).toBitVec at h57
    change (97 : UInt32).toBitVec ≤ c.val.toBitVec at h1
    simp [BitVec.le_def] at h1 h57
    omega
  all_goals (rintro rfl; simp_all)

theorem bangMatch_bangForm (s : String) (hne : s.toList ≠ [])
    (hws : ∀ c ∈ s.toList, c.isWhitespace = false) :
    bangMatch ("!" ++ s) = some s.toList := by
  have htl : ("!" ++ s).toList = '!' :: s.toList := by
    show ("!" ++ s).data = _
    rw [String.data_append]
    rfl
  have hstrip : pyStripL ('!' :: s.toList) = '!' :: s.toList := by
    apply pyStripL_no_ws
    intro c hc
    rcases List.mem_cons.1 hc with rfl | hc
    · rfl
    · exact hws c hc
  have h1 : s.toList.isEmpty = false := by
    cases h : s.toList
    · exact absurd h hne
    · rfl
  have h2 : s.toList.contains '\n' = false := by
    by_contra hcon
    have hmem : '\n' ∈ s.toList := by
      have hcc : s.toList.contains '\n' = true := by
        cases hcv : s.toList.contains '\n'
        · exact absurd hcv hcon
        · rfl
      simpa using hcc
    have := hws _ hmem
    simp at this
  unfold bangMatch
  rw [htl, hstrip]
  simp only [h1, h2]
  rfl

theorem expand_bang_reduces (hist : List String) (s : String) (hne : s.toList ≠ [])
    (hws : ∀ c ∈ s.toList, c.isWhitespace = false) :
    expand_bang hist ("!" ++ s) = resolveBangToken hist s := by
  unfold expand_bang
  rw [bangMatch_bangForm s hne hws]
  show resolveBangToken hist (String.mk (pyStripL s.toList)) = resolveBangToken hist s
  rw [pyStripL_no_ws s.toList hws]
  rfl

theorem resolveBangToken_absolute (hist : List String) (s : String)
    (hne : s.toList ≠ []) (hdig : s.toList.all Char.isDigit = true) :
    resolveBangToken hist s =
      (if hist.isEmpty then .error "event not found: history is empty"
       else if digitsValL s.toList ≤ 0 ∨ digitsValL s.toList > hist.length then
         .error ("event not found: !" ++ s)
       else .ok (hist.getD (digitsValL s.toList - 1) "")) := by
  rcases hc : s.toList with _ | ⟨c, r⟩
  · exact absurd hc hne
  have hcd : c.isDigit = true := by
    have := List.all_eq_true.1 hdig c (by rw [hc]; simp)
    exact this
  obtain ⟨-, hcm, -, hcb⟩ := digitChar_facts c hcd
  have hs1 : ¬ s = "!" := by
    intro heq
    rw [heq] at hc
    have : c = '!' := by simpa using congrArg List.head? hc.symm
    exact hcb this
  have hs2 : ¬ s.toList.head? = some '-' := by
    rw [hc]
    simp [hcm]
  have hs3 : pyIsDigit s = true := by
    simp only [pyIsDigit, Bool.and_eq_true, Bool.not_eq_true']
    constructor
    · rw [hc]; rfl
    · exact hdig
  unfold resolveBangToken
  by_cases h0 : hist.isEmpty
  · rw [if_pos h0, if_pos h0]
  · rw [if_neg h0, if_neg h0, if_neg hs1, if_neg hs2, if_pos hs3, hc]

theorem resolveBangToken_relative (hist : List String) (s : String)
    (hne : s.toList ≠ []) (hdig : s.toList.all Char.isDigit = true) :
    resolveBangToken hist ("-" ++ s) =
      (if hist.isEmpty then .error "event not found: history is empty"
       else if (digitsValL s.toList : Int) ≤ 0 ∨
           (digitsValL s.toList : Int) > (hist.length : Int) then
         .error ("bad event specification: !-" ++ s)
       else .ok (hist.getD (hist.length - digitsValL s.toList) "")) := by
  rcases hc : s.toList with _ | ⟨c, r⟩
  · exact absurd hc hne
  have hcd : c.isDigit = true := List.all_eq_true.1 hdig c (by rw [hc]; simp)
  obtain ⟨hcw, hcm, hcp, -⟩ := digitChar_facts c hcd
  have htl : ("-" ++ s).toList = '-' :: s.toList := by
    show ("-" ++ s).data = _
    rw [String.data_append]
    rfl
  have hs1 : ¬ ("-" ++ s) = "!" := by
    intro heq
    have := congrArg List.head? (congrArg String.toList heq)
    rw [htl] at this
    simp at this
  have hs2 : ("-" ++ s).toList.head? = some '-' := by rw [htl]; rfl
  have hws : ∀ d ∈ s.toList, d.isWhitespace = false := fun d hd =>
    (digitChar_facts d (List.all_eq_true.1 hdig d hd)).1
  have hint : pyInt (String.mk (("-" ++ s).toList.drop 1)) =
      some ((digitsValL s.toList : Int)) := by
    rw [htl]
    show pyInt (String.mk s.toList) = _
    unfold pyInt
    have hstrip : pyStripL (String.mk s.toList).toList = s.toList := by
      show pyStripL s.toList = s.toList
      exact pyStripL_no_ws _ hws
    rw [hstrip]
    have hmatch : (match s.toList with
        | '+' :: r => ((1 : Int), r)
        | '-' :: r => ((-1 : Int), r)
        | r => ((1 : Int), r)) = ((1 : Int), s.toList) := by
      rw [hc]
      split
      · rename_i r2 heq
        injection heq with hch
        exact absurd hch hcp
      · rename_i r2 heq
        injection heq with hch
        exact absurd hch hcm
      · rfl
    simp only [hmatch]
    have hie : s.toList.isEmpty = false := by
      cases hx : s.toList
      · exact absurd hx hne
      · rfl
    simp
    exact ⟨by simpa using hne, fun x hx => List.all_eq_true.1 hdig x hx⟩
  unfold resolveBangToken
  by_cases h0 : hist.isEmpty
  · rw [if_pos h0, if_pos h0]
  · rw [if_neg h0, if_neg h0, if_neg hs1, if_pos hs2, hint]
    have hstr : ("bad event specification: !" ++ ("-" ++ s)) =
        "bad event specification: !-" ++ s := by
      rw [← String.append_assoc]
      rfl
    have htn : ((digitsValL s.toList : Int)).toNat = digitsValL s.toList :=
      Int.toNat_natCast _
    simp only [hstr, htn]
    rw [hc]

theorem resolveBangToken_keyword (hist : List String) (p : String)
    (hne : p.toList ≠ []) (hlow : ∀ c ∈ p.toList, c.isLower = true) :
    resolveBangToken hist p =
      (if hist.isEmpty then .error "event not found: history is empty"
       else
         match hist.reverse.find? (fun cmd => pyStartsWith cmd p) with
         | some cmd => .ok cmd
         | none => .error ("event not found: !" ++ p)) := by
  rcases hcl : p.toList with _ | ⟨c, r⟩
  · exact absurd hcl hne
  obtain ⟨hcw, hcd, hcm, hcb⟩ := lowerChar_facts c (hlow c (by rw [hcl]; simp))
  have hs1 : ¬ p = "!" := by
    intro heq
    rw [heq] at hcl
    have : c = '!' := by simpa using congrArg List.head? hcl.symm
    exact hcb this
  have hs2 : ¬ p.toList.head? = some '-' := by rw [hcl]; simp [hcm]
  have hs3 : ¬ pyIsDigit p = true := by
    simp only [pyIsDigit]
    rw [hcl]
    simp [hcd]
  unfold resolveBangToken
  by_cases h0 : hist.isEmpty
  · rw [if_pos h0, if_pos h0]
  · rw [if_neg h0, if_neg h0, if_neg hs1, if_neg hs2, if_neg hs3]

/-- Claim C8: bang expansion against a history list resolves `!!` to the
most recent entry; `!N` (digits, value ≥ 1) to the absolute 1-based Nth
entry, failing with an "event not found" error when out of range; `!-N` to
the Nth most recent entry, failing with "bad event specification" when out
of range; and `!prefix` (for a lowercase-letter prefix) to the most recent
entry starting with the prefix, failing with "event not found" when none
does; against an empty history every bang line fails; and a line with no
leading `!` (after stripping) passes through unchanged. -/
theorem C8_bang_expansion :
    (∀ hist : List String, hist ≠ [] →
        expand_bang hist "!!" = .ok (hist.getLastD "")) ∧
    (∀ (hist : List String) (s : String),
        s.toList ≠ [] → s.toList.all Char.isDigit = true →
        1 ≤ digitsValL s.toList → digitsValL s.toList ≤ hist.length →
        expand_bang hist ("!" ++ s) = .ok (hist.getD (digitsValL s.toList - 1) "")) ∧
    (∀ (hist : List String) (s : String),
        s.toList ≠ [] → s.toList.all Char.isDigit = true →
        hist ≠ [] → hist.length < digitsValL s.toList →
        expand_bang hist ("!" ++ s) = .error ("event not found: !" ++ s)) ∧
    (∀ (hist : List String) (s : String),
        s.toList ≠ [] → s.toList.all Char.isDigit = true →
        1 ≤ digitsValL s.toList → digitsValL s.toList ≤ hist.length →
        expand_bang hist ("!-" ++ s) =
          .ok (hist.getD (hist.length - digitsValL s.toList) "")) ∧
    (∀ (hist : List String) (s : String),
        s.toList ≠ [] → s.toList.all Char.isDigit = true →
        hist ≠ [] → hist.length < digitsValL s.toList →
        expand_bang hist ("!-" ++ s) = .error ("bad event specification: !-" ++ s)) ∧
    (∀ (hist : List String) (p : String),
        hist ≠ [] → p.toList ≠ [] → (∀ c ∈ p.toList, c.isLower = true) →
        expand_bang hist ("!" ++ p) =
          (match hist.reverse.find? (fun cmd => pyStartsWith cmd p) with
           | some cmd => .ok cmd
           | none => .error ("event not found: !" ++ p))) ∧
    (∀ line : String, bangMatch line ≠ none →
        expand_bang [] line = .error "event not found: history is empty") ∧
    (∀ (hist : List String) (line : String),
        (pyStripL line.toList).head? ≠ some '!' →
        expand_bang hist line = .ok line) := by
  have digits_ws : ∀ (s : String), s.toList.all Char.isDigit = true →
      ∀ c ∈ s.toList, c.isWhitespace = false := fun s hdig c hc =>
    (digitChar_facts c (List.all_eq_true.1 hdig c hc)).1
  refine ⟨?_, ?_, ?_, ?_, ?_, ?_, ?_, ?_⟩
  · intro hist h
    have h0 : hist.isEmpty = false := by
      cases hist
      · exact absurd rfl h
      · rfl
    show resolveBangToken hist "!" = _
    simp [resolveBangToken, h0]
  · intro hist s hne hdig h1 h2
    rw [expand_bang_reduces hist s hne (digits_ws s hdig),
      resolveBangToken_absolute hist s hne hdig]
    have h0 : hist.isEmpty = false := by
      have hlen : 1 ≤ hist.length := le_trans h1 h2
      cases hist
      · simp at hlen
      · rfl
    simp only [h0, Bool.false_eq_true, if_false]
    rw [if_neg (by omega)]
  · intro hist s hne hdig hh h2
    rw [expand_bang_reduces hist s hne (digits_ws s hdig),
      resolveBangToken_absolute hist s hne hdig]
    have h0 : hist.isEmpty = false := by
      cases hist
      · exact absurd rfl hh
      · rfl
    simp only [h0, Bool.false_eq_true, if_false]
    rw [if_pos (by omega)]
  · intro hist s hne hdig h1 h2
    have hlist : ("-" ++ s).toList = '-' :: s.toList := by
      show ("-" ++ s).data = _
      rw [String.data_append]
      rfl
    rw [show ("!-" ++ s : String) = "!" ++ ("-" ++ s) from rfl]
    rw [expand_bang_reduces hist ("-" ++ s) (by rw [hlist]; simp) ?hws,
      resolveBangToken_relative hist s hne hdig]
    case hws =>
      intro c hc
      rw [hlist] at hc
      rcases List.mem_cons.1 hc with rfl | hc
      · rfl
      · exact digits_ws s hdig c hc
    have h0 : hist.isEmpty = false := by
      have hlen : 1 ≤ hist.length := le_trans h1 h2
      cases hist
      · simp at hlen
      · rfl
    simp only [h0, Bool.false_eq_true, if_false]
    have hcond : ¬((digitsValL s.toList : Int) ≤ 0 ∨
        (digitsValL s.toList : Int) > (hist.length : Int)) := by omega
    rw [if_neg hcond]
  · intro hist s hne hdig hh h2
    have hlist : ("-" ++ s).toList = '-' :: s.toList := by
      show ("-" ++ s).data = _
      rw [String.data_append]
      rfl
    rw [show ("!-" ++ s : String) = "!" ++ ("-" ++ s) from rfl]
    rw [expand_bang_reduces hist ("-" ++ s) (by rw [hlist]; simp) ?hws2,
      resolveBangToken_relative hist s hne hdig]
    case hws2 =>
      intro c hc
      rw [hlist] at hc
      rcases List.mem_cons.1 hc with rfl | hc
      · rfl
      · exact digits_ws s hdig c hc
    have h0 : hist.isEmpty = false := by
      cases hist
      · exact absurd rfl hh
      · rfl
    simp only [h0, Bool.false_eq_true, if_false]
    have hcond : (digitsValL s.toList : Int) ≤ 0 ∨
        (digitsValL s.toList : Int) > (hist.length : Int) := by omega
    rw [if_pos hcond]
  · intro hist p hh hne hlow
    have hws : ∀ c ∈ p.toList, c.isWhitespace = false := fun c hc =>
      (lowerChar_facts c (hlow c hc)).1
    rw [expand_bang_reduces hist p hne hws, resolveBangToken_keyword hist p hne hlow]
    have h0 : hist.isEmpty = false := by
      cases hist
      · exact absurd rfl hh
      · rfl
    simp only [h0, Bool.false_eq_true, if_false]
  · intro line hbm
    rcases h : bangMatch line with _ | g
    · exact absurd h hbm
    · unfold expand_bang
      rw [h]
      rfl
  · intro hist line hh
    have hbm : bangMatch line = none := by
      unfold bangMatch
      rcases hp : pyStripL line.toList with _ | ⟨c, rest⟩
      · rfl
      · rw [hp] at hh
        have hc : c ≠ '!' := by simpa using hh
        split
        · rename_i rest2 heq
          injection heq with hch
          exact absurd hch hc
        · rfl
    unfold expand_bang
    rw [hbm]

/-- Witness for `C8_bang_expansion` at a concrete input (`!-2` against the
spec's example history). -/
theorem C8_bang_expansion_witness :
    "2".toList ≠ [] ∧
    expand_bang ["ls", "pwd", "git status"] ("!-" ++ "2") = .ok "pwd" := by
  refine ⟨by decide, ?_⟩
  have h := C8_bang_expansion.2.2.2.1 ["ls", "pwd", "git status"] "2"
    (by decide) (by decide) (by decide) (by decide)
  exact h.trans (by rfl)

end EdaAiAssist
